import Mathlib

/-!
Verification development for the BitAxe Dashboard repository.

This file gives a shallow embedding, in Lean 4, of the ingestion, alerting,
settings and difficulty-projection logic of the repository, and proves (or
refutes) the behavioural claims made about it.  Python floats are modelled
as rationals (exact arithmetic), Python ints as integers, nullable fields
as Option, Python strings undergoing computation as lists of characters,
and raising code as Option-valued functions (none models a raised
exception).  Database state is modelled by explicit lists.
-/

set_option allowUnsafeReducibility true

attribute [semireducible] Rat.add Rat.sub Rat.mul Rat.div Rat.inv

namespace BitAxe

/-- Truthiness of a nullable Python float: falsy when the value is None
(`none`) or numerically zero, mirroring `if data.temp and ...`. -/
def truthyOptQ : Option ℚ → Bool
  | none => false
  | some x => decide (x ≠ 0)

/-- Truthiness of a nullable Python int, falsy when None or zero. -/
def truthyOptZ : Option ℤ → Bool
  | none => false
  | some x => decide (x ≠ 0)

/-- Truthiness of a nullable Python string, falsy when None or empty. -/
def truthyOptS : Option String → Bool
  | none => false
  | some s => decide (s ≠ "")

/-- Value of the decimal digit string `cs`, accumulating left to right;
models how a digit sequence contributes to Python float parsing. -/
def natOfDigits (cs : List Char) : ℕ :=
  cs.foldl (fun a c => 10 * a + (c.toNat - 48)) 0

/-- Strips one leading sign character, returning the sign and the rest;
first step of the model of the Python builtin `float(str)`. -/
def stripSign (cs : List Char) : ℤ × List Char :=
  if cs.head? = some '-' then (-1, cs.tail)
  else if cs.head? = some '+' then (1, cs.tail)
  else (1, cs)

/-- Value of a signed decimal literal split at the first non-digit
character: `ip` is the leading digit block, `rest` what follows it.  An
empty rest is a plain integer literal; a dot followed by digits only is
a decimal fraction; anything else fails. -/
def pyFloatBody (sg : ℤ) (ip rest : List Char) : Option ℚ :=
  match rest with
  | [] => if ip = [] then none else some ((sg : ℚ) * (natOfDigits ip : ℚ))
  | '.' :: fr =>
    if fr.all Char.isDigit ∧ (ip ≠ [] ∨ fr ≠ []) then
      some ((sg : ℚ) * ((natOfDigits ip : ℚ) + (natOfDigits fr : ℚ) / 10 ^ fr.length))
    else none
  | _ => none

/-- Model of the Python builtin `float` applied to a string, restricted to
plain decimal literals (optional sign, digits, at most one dot): `none`
models the ValueError raised on any other input, in particular on the
suffixed difficulty strings such as "60.0M" that the devices emit.
Exotic accepted spellings (exponents, inf/nan, underscores, surrounding
whitespace) are outside the fragment exercised by this repository. -/
def pyFloatChars (cs : List Char) : Option ℚ :=
  pyFloatBody (stripSign cs).1
    ((stripSign cs).2.takeWhile Char.isDigit)
    ((stripSign cs).2.dropWhile Char.isDigit)

/-- Python `float(s)` on a Lean string literal. -/
def pyFloat (s : String) : Option ℚ :=
  pyFloatChars s.toList

/-- One telemetry sample, translated from the MinerData model in
src/src/models/__init__.py (only the columns the alert rules read;
nullable columns are Option). -/
structure MinerData where
  temp : Option ℚ
  vr_temp : Option ℚ
  power : Option ℚ
  hash_rate : Option ℚ
  best_diff : Option String
  best_session_diff : Option String
  shares_accepted : Option ℤ
  shares_rejected : Option ℤ
  is_using_fallback_stratum : Bool
  timestamp : ℚ
deriving DecidableEq

/-- Rejection rate property of MinerData (src/src/models/__init__.py):
returns 0 when either share counter is None or zero, otherwise
rejected / (accepted + rejected) * 100, guarded against a non-positive
total. -/
def reject_rate (d : MinerData) : ℚ :=
  if ¬ (truthyOptZ d.shares_accepted = true) ∨ ¬ (truthyOptZ d.shares_rejected = true) then 0
  else
    let total := d.shares_accepted.getD 0 + d.shares_rejected.getD 0
    if total > 0 then ((d.shares_rejected.getD 0 : ℚ) / (total : ℚ)) * 100 else 0

/-- One row of the alert_logs table as produced by AlertService._send_alert
(the free-text message is omitted; the fields relevant to the claims are
the type, triggering value, threshold and severity). -/
structure AlertEvent where
  alert_type : String
  value : Option ℚ
  threshold : Option ℚ
  severity : String
deriving DecidableEq

/-- Temperature rules of AlertService._check_temperature_alerts: high_temp
and high_vr_temp are cooldown gated, critical_temp (threshold + 10) is
not.  The cooldown state is passed in as a predicate on alert types;
inside one evaluation the three types are distinct, so the rows written
by one rule never gate another. -/
def check_temperature_alerts (d : MinerData) (temp_limit vr_temp_limit : ℚ)
    (inCooldown : String → Bool) : List AlertEvent :=
  (if truthyOptQ d.temp && decide (d.temp.getD 0 > temp_limit) && !(inCooldown "high_temp") then
    [⟨"high_temp", some (d.temp.getD 0), some temp_limit, "warning"⟩] else [])
  ++
  (if truthyOptQ d.vr_temp && decide (d.vr_temp.getD 0 > vr_temp_limit)
      && !(inCooldown "high_vr_temp") then
    [⟨"high_vr_temp", some (d.vr_temp.getD 0), some vr_temp_limit, "warning"⟩] else [])
  ++
  (if truthyOptQ d.temp && decide (d.temp.getD 0 > temp_limit + 10) then
    [⟨"critical_temp", some (d.temp.getD 0), some (temp_limit + 10), "critical"⟩] else [])

/-- Performance rules of AlertService._check_performance_alerts: reject
rate against the configured fraction converted to a percentage, and the
20 percent hash rate drop rule. -/
def check_performance_alerts (d : MinerData) (prev : Option MinerData)
    (reject_rate_limit : ℚ) (inCooldown : String → Bool) : List AlertEvent :=
  (if decide (reject_rate d > reject_rate_limit * 100) && !(inCooldown "high_reject_rate") then
    [⟨"high_reject_rate", some (reject_rate d), some (reject_rate_limit * 100), "warning"⟩]
   else [])
  ++
  (match prev with
   | none => []
   | some p =>
     if truthyOptQ d.hash_rate && truthyOptQ p.hash_rate
        && decide (d.hash_rate.getD 0 < p.hash_rate.getD 0 * (1 - 2/10))
        && !(inCooldown "hash_rate_drop") then
       [⟨"hash_rate_drop", some (d.hash_rate.getD 0),
         some (p.hash_rate.getD 0 * (1 - 2/10)), "warning"⟩]
     else [])

/-- Value used by _check_achievement_alerts for one difficulty column:
`float(s) if s else 0`, where a None or empty string short-circuits to 0
and any other string goes through the Python float builtin; `none` models
the ValueError raised on an unparsable string. -/
def diffVal : Option String → Option ℚ
  | none => some 0
  | some s => if s = "" then some 0 else pyFloat s

/-- One try/except block of _check_achievement_alerts: both columns are
evaluated, and on any parse exception the block is skipped (no event);
these events are sent without a cooldown check. -/
def achievement_block (cur prev : Option String) (ty : String) : List AlertEvent :=
  match diffVal cur, diffVal prev with
  | some c, some p =>
    if decide (c > p) && decide (c > 0) then [⟨ty, some c, none, "info"⟩] else []
  | _, _ => []

/-- Achievement rules of AlertService._check_achievement_alerts: nothing
fires without a previous sample; the overall and session blocks fail
independently. -/
def check_achievement_alerts (d : MinerData) (prev : Option MinerData) : List AlertEvent :=
  match prev with
  | none => []
  | some p =>
    achievement_block d.best_diff p.best_diff "new_best_diff"
    ++ achievement_block d.best_session_diff p.best_session_diff "new_session_best"

/-- One row of the alert_logs table as seen by the cooldown query: the
alert type and the creation time (seconds). -/
structure AlertLogEntry where
  alert_type : String
  timestamp : ℚ
deriving DecidableEq

/-- Observable alerting state: the persisted alert_logs rows and the
messages handed to the Telegram notification sink, most recent first. -/
structure AlertState where
  logs : List AlertLogEntry
  sent : List String
deriving DecidableEq

/-- AlertService._is_in_cooldown: true when some alert_logs row of the
same type is strictly newer than now minus the configured cooldown
(minutes, converted to seconds here). -/
def is_in_cooldown (ty : String) (now cooldown_minutes : ℚ) (logs : List AlertLogEntry) : Bool :=
  logs.any (fun e => e.alert_type == ty && decide (e.timestamp > now - cooldown_minutes * 60))

/-- AlertService._send_alert: always inserts an alert_logs row, then hands
the message to the Telegram sink when the telegram_enabled setting is on. -/
def send_alert (ty msg : String) (telegram_enabled : Bool) (now : ℚ)
    (st : AlertState) : AlertState :=
  { logs := ⟨ty, now⟩ :: st.logs
    sent := if telegram_enabled then msg :: st.sent else st.sent }

/-- The firing pattern shared by the cooldown gated rules (high_temp,
high_vr_temp, high_power, high_reject_rate, hash_rate_drop, no_data,
miner_offline): `if not self._is_in_cooldown(t): self._send_alert(...)`.
Under cooldown nothing happens: no notification and no alert_logs row. -/
def fire_gated (ty msg : String) (telegram_enabled : Bool) (now cooldown_minutes : ℚ)
    (st : AlertState) : AlertState :=
  if is_in_cooldown ty now cooldown_minutes st.logs then st
  else send_alert ty msg telegram_enabled now st

/-- AlertService.check_offline_status: nothing when the
offline_alert_enabled setting is off; `no_data` (cooldown gated) when the
store has no rows; `miner_offline` (cooldown gated) when the newest row
is strictly older than 30 minutes.  `latest` is the newest sample
timestamp in seconds, `none` when the table is empty. -/
def check_offline_status (offline_alert_enabled telegram_enabled : Bool)
    (latest : Option ℚ) (now cooldown_minutes : ℚ) (st : AlertState) : AlertState :=
  if !offline_alert_enabled then st
  else
    match latest with
    | none => fire_gated "no_data" "no data" telegram_enabled now cooldown_minutes st
    | some ts =>
      if decide (ts < now - 30 * 60) then
        fire_gated "miner_offline" "miner offline" telegram_enabled now cooldown_minutes st
      else st

/-- Legacy watchdog check_miner_status (src/src/service/check_online.py):
compares `(now - last_timestamp).seconds > 1800`.  The Python
timedelta.seconds attribute is the within-day remainder, modelled by the
Euclidean remainder modulo 86400; the function returns the list of sent
messages and its boolean result.  No cooldown is involved. -/
def check_miner_status (latest : Option ℤ) (now : ℤ) : List String × Bool :=
  match latest with
  | none => (["No data in the database!"], false)
  | some ts =>
    if (now - ts) % 86400 > 1800 then (["Miner is offline!"], false)
    else ([], true)

/-- Result of the Flask body parse in receive_miner_data:
`invalid` models a body that request.get_json() cannot parse (Flask
raises BadRequest inside the try block, reaching the generic exception
handler), `json none` a parse that yields a falsy value (JSON null or an
empty object), and `json (some p)` a truthy payload. -/
inductive ReqBody where
  | invalid : ReqBody
  | json : Option MinerData → ReqBody

/-- Checks the required fields of receive_miner_data: power, temp and
hashRate must be present and non-null. -/
def missing_required (p : MinerData) : Bool :=
  p.power.isNone || p.temp.isNone || p.hash_rate.isNone

/-- Endpoint receive_miner_data (src/src/routes/api.py) as a function of
the parsed body, a flag saying whether the storage commit fails with
SQLAlchemyError, and the stored rows.  Result: (HTTP status, returned
row id if any, rows after the request).  The row id reproduces the
autoincrement primary key as one plus the row count; a storage failure is
rolled back, leaving the store unchanged.  Alert evaluation runs after
the commit and never alters the response (check_alerts swallows its own
errors). -/
def receive_miner_data (body : ReqBody) (storage_fails : Bool)
    (store : List MinerData) : (ℕ × Option ℕ) × List MinerData :=
  match body with
  | .invalid => ((500, none), store)
  | .json none => ((400, none), store)
  | .json (some p) =>
    if missing_required p then ((400, none), store)
    else if storage_fails then ((500, none), store)
    else ((200, some (store.length + 1)), store ++ [p])

/-- A Python value as stored into or returned from the settings table:
the repository stores booleans, floats and strings there.  Floats are
modelled exactly as rationals; strings as character lists. -/
inductive PyVal where
  | bool : Bool → PyVal
  | float : ℚ → PyVal
  | str : List Char → PyVal
deriving DecidableEq

/-- Character of one decimal digit. -/
def digitChar (d : ℕ) : Char := Char.ofNat (48 + d)

/-- Decimal digit characters of n, most significant first (empty for 0). -/
def natChars (n : ℕ) : List Char := ((Nat.digits 10 n).reverse).map digitChar

/-- Smallest exponent e below den + 1 with 10 ^ e divisible by the
denominator; exists exactly when q has a finite decimal expansion, which
every Python float has. -/
def pow10Exp (q : ℚ) : Option ℕ :=
  (List.range (q.den + 1)).find? (fun e => 10 ^ e % q.den == 0)

/-- Model of the Python builtin `str` on a float with a finite decimal
expansion: sign, integer digits, dot, fraction digits, e.g. 3.5 to "3.5".
Python renders the shortest decimal that parses back to the same float;
this model keeps that contract (the produced literal re-parses to exactly
q) without reproducing the digit-selection algorithm.  Values without a
finite decimal expansion do not arise from Python floats. -/
def renderFloat (q : ℚ) : List Char :=
  match pow10Exp q with
  | none => "inf".toList
  | some e =>
    let k := 10 ^ e / q.den
    let scaled := q.num.natAbs * k
    let ip := scaled / 10 ^ e
    let fp := scaled % 10 ^ e
    let ipc := if ip = 0 then ['0'] else natChars ip
    let fpc := List.replicate (e - (natChars fp).length) '0' ++ natChars fp
    (if q.num < 0 then ['-'] else []) ++ ipc ++ '.' :: fpc

/-- Model of the Python builtin `str` on the values stored by
Settings.set_setting. -/
def pyStr : PyVal → List Char
  | .bool true => "True".toList
  | .bool false => "False".toList
  | .float q => renderFloat q
  | .str s => s

/-- Settings.get_setting value conversion: a stored text equal to "true"
or "false" after lowercasing comes back as a boolean, anything the float
builtin accepts comes back as a float, and everything else comes back as
the raw string. -/
def parse_stored (cs : List Char) : PyVal :=
  let low := cs.map Char.toLower
  if low = "true".toList ∨ low = "false".toList then .bool (low == "true".toList)
  else
    match pyFloatChars cs with
    | some q => .float q
    | none => .str cs

/-- Settings.set_setting: upsert of str(value) under the key. -/
def set_setting (key : String) (v : PyVal)
    (store : List (String × List Char)) : List (String × List Char) :=
  if store.any (fun p => p.1 == key) then
    store.map (fun p => if p.1 == key then (key, pyStr v) else p)
  else store ++ [(key, pyStr v)]

/-- Settings.get_setting: the stored text re-typed by parse_stored, or the
default when the key is absent. -/
def get_setting (key : String) (dflt : PyVal)
    (store : List (String × List Char)) : PyVal :=
  match store.find? (fun p => p.1 == key) with
  | some p => parse_stored p.2
  | none => dflt

/-- One row as consumed by the Dash performance overview callback
(src/src/web/dash_app.py): the sqlite row dictionary keyed by
bestSessionDiff, hashRate, timestamp.  A none field models a missing or
NULL entry whose subscripting would raise. -/
structure DashSample where
  bestSessionDiff : Option String
  hashRate : Option ℚ
  timestamp : ℤ
deriving DecidableEq

/-- Difficulty string conversion of update_performance_overview, lines
411-422: dispatch on the final character among k, M, G, T, multiply the
float of the remaining text by the magnitude, and otherwise fall through
to -1.  `none` models a raised exception: indexing an empty string, or a
float failure of the prefix text under a recognised suffix. -/
def parse_dash_diff (s : String) : Option ℚ :=
  match s.toList.getLast? with
  | none => none
  | some c =>
    if c = 'k' then (pyFloatChars s.toList.dropLast).map (fun q => q * 1000)
    else if c = 'M' then (pyFloatChars s.toList.dropLast).map (fun q => q * 1000000)
    else if c = 'G' then (pyFloatChars s.toList.dropLast).map (fun q => q * 1000000000)
    else if c = 'T' then (pyFloatChars s.toList.dropLast).map (fun q => q * 1000000000000)
    else some (-1)

/-- Outcome of the performance overview callback: the early-return
messages, or the computed statistics of the success branch
(day, month, year chances; expected seconds with none as float(inf);
elapsed seconds since the streak start). -/
inductive ProjResult where
  | noData : ProjResult
  | requiredMissing : ProjResult
  | noRecord : ProjResult
  | invalidDiff : ProjResult
  | ok : ℚ → ℚ → ℚ → Option ℚ → ℤ → ProjResult
deriving DecidableEq

/-- Arithmetic tail of update_performance_overview, lines 437-463: mean
hash rate scaled to hashes per second, the 2 ^ 32 difficulty space, the
expected time (infinite unless the chance is positive), and the three
display chances, where the day chance is reset to 0.9999 only above
0.99999 and the month and year chances only above 1. -/
def finish_projection (best_session_diff : ℚ) (rates : List ℚ)
    (time_diff_seconds : ℤ) : ProjResult :=
  let H := ((rates.map (fun r => r * 1000000000)).sum) / (rates.length : ℚ)
  if best_session_diff ≤ 0 then .invalidDiff
  else
    let chance_per_second := H / (best_session_diff * 4294967296)
    let expected := if chance_per_second > 0 then some (1 / chance_per_second) else none
    let cd := 86400 * chance_per_second
    let cm := 30 * cd
    let cy := 365 * cd
    .ok (if cd > 99999/100000 then 9999/10000 else cd)
        (if cm > 1 then 9999/10000 else cm)
        (if cy > 1 then 9999/10000 else cy)
        expected time_diff_seconds

/-- Callback update_performance_overview as a function of the historical
window (ascending) and of the streak-start lookup result (timestamp of
the first row carrying the same bestSessionDiff text, none when the
query finds nothing).  The outer none models an uncaught exception; the
checks and exceptions are sequenced as in the source: empty window, key
check on the first row, subscript of the last row, difficulty
conversion, record lookup, per-row hashRate subscripts, then the
arithmetic tail. -/
def update_performance_overview (data_array : List DashSample)
    (first_record_time : Option ℤ) : Option ProjResult :=
  match data_array with
  | [] => some .noData
  | first :: _ =>
    if first.bestSessionDiff.isNone || first.hashRate.isNone then some .requiredMissing
    else do
      let last ← data_array.getLast?
      let s ← last.bestSessionDiff
      let d ← parse_dash_diff s
      match first_record_time with
      | none => some .noRecord
      | some t0 => do
        let rates ← data_array.mapM (fun x => x.hashRate)
        some (finish_projection d rates (last.timestamp - t0))

/-- Day chance displayed by an ok projection outcome. -/
def projChanceDay : ProjResult → Option ℚ
  | .ok cd _ _ _ _ => some cd
  | _ => none

/-- Month chance displayed by an ok projection outcome. -/
def projChanceMonth : ProjResult → Option ℚ
  | .ok _ cm _ _ _ => some cm
  | _ => none

/-- Year chance displayed by an ok projection outcome. -/
def projChanceYear : ProjResult → Option ℚ
  | .ok _ _ cy _ _ => some cy
  | _ => none

/-- Expected seconds of an ok projection outcome (inner none = infinity). -/
def projExpected : ProjResult → Option (Option ℚ)
  | .ok _ _ _ ex _ => some ex
  | _ => none

/-! Theorems.  Each claim of the specification is settled below; helper
lemmas carry neutral names and are shared.  -/

/-- C1 (counterexample): firing the same cooldown gated rule twice within
the cooldown window does NOT log two AlertEvents: the suppressed second
firing skips _send_alert entirely, so exactly one alert_logs row exists
afterwards, refuting the claimed two logged rows. -/
theorem claim_C1_counterexample :
    (fire_gated "high_temp" "b" true 10 30
        (fire_gated "high_temp" "a" true 0 30 ⟨[], []⟩)).sent.length = 1
    ∧ (fire_gated "high_temp" "b" true 10 30
        (fire_gated "high_temp" "a" true 0 30 ⟨[], []⟩)).logs.length = 1
    ∧ (fire_gated "high_temp" "b" true 10 30
        (fire_gated "high_temp" "a" true 0 30 ⟨[], []⟩)).logs.length ≠ 2 := by
  decide

/-- C1 (amended): for a cooldown gated rule that is not already in
cooldown, two firings within the cooldown window send exactly one
notification and persist exactly one AlertEvent row (the suppressed
firing is neither sent nor logged); a rule firing through the ungated
_send_alert path (critical_temp, the stratum rules and the achievement
rules) logs and notifies on both firings. -/
theorem claim_C1_cooldown_gates_log_and_send (ty m1 m2 : String) (t1 t2 cd : ℚ)
    (st0 : AlertState)
    (h1 : is_in_cooldown ty t1 cd st0.logs = false)
    (h2 : t1 > t2 - cd * 60) :
    (fire_gated ty m2 true t2 cd (fire_gated ty m1 true t1 cd st0)).logs.length
        = st0.logs.length + 1
    ∧ (fire_gated ty m2 true t2 cd (fire_gated ty m1 true t1 cd st0)).sent.length
        = st0.sent.length + 1
    ∧ (send_alert ty m2 true t2 (send_alert ty m1 true t1 st0)).logs.length
        = st0.logs.length + 2
    ∧ (send_alert ty m2 true t2 (send_alert ty m1 true t1 st0)).sent.length
        = st0.sent.length + 2 := by
  have hfire1 : fire_gated ty m1 true t1 cd st0 = send_alert ty m1 true t1 st0 := by
    simp [fire_gated, h1]
  have hcool2 : is_in_cooldown ty t2 cd (send_alert ty m1 true t1 st0).logs = true := by
    simp [is_in_cooldown, send_alert]
    exact Or.inl h2
  rw [hfire1]
  have hfire2 : fire_gated ty m2 true t2 cd (send_alert ty m1 true t1 st0)
      = send_alert ty m1 true t1 st0 := by
    simp [fire_gated, hcool2]
  rw [hfire2]
  simp [send_alert]

/-- C1 (witness): the amended statement at a concrete run: empty state,
cooldown 30 minutes, firings at 0 s and 10 s. -/
theorem claim_C1_witness :
    (fire_gated "high_temp" "b" true 10 30
        (fire_gated "high_temp" "a" true 0 30 (AlertState.mk [] []))).logs.length
        = ([] : List AlertLogEntry).length + 1
    ∧ (fire_gated "high_temp" "b" true 10 30
        (fire_gated "high_temp" "a" true 0 30 (AlertState.mk [] []))).sent.length
        = ([] : List String).length + 1
    ∧ (send_alert "high_temp" "b" true 10
        (send_alert "high_temp" "a" true 0 (AlertState.mk [] []))).logs.length
        = ([] : List AlertLogEntry).length + 2
    ∧ (send_alert "high_temp" "b" true 10
        (send_alert "high_temp" "a" true 0 (AlertState.mk [] []))).sent.length
        = ([] : List String).length + 2 :=
  claim_C1_cooldown_gates_log_and_send "high_temp" "a" "b" 0 10 30 ⟨[], []⟩
    (by decide) (by norm_num)

/-- C7 (code_bug): at a latest-sample age of 87000 seconds (24 h 10 min)
the legacy check_miner_status computes timedelta.seconds = 600, concludes
the miner is online and sends nothing, although the age is far above the
30 minute staleness window; the newer AlertService.check_offline_status
raises miner_offline at the same age.  The legacy comparison therefore
contradicts its own docstring for ages beyond one day. -/
theorem claim_C7_daily_wrap_bug :
    check_miner_status (some 0) 87000 = ([], true)
    ∧ (87000 : ℤ) > 1800
    ∧ (check_offline_status true true (some 0) 87000 30 ⟨[], []⟩).logs
        = [⟨"miner_offline", 87000⟩]
    ∧ (check_offline_status true true (some 0) 87000 30 ⟨[], []⟩).sent
        = ["miner offline"] := by
  decide

/-- C8 (counterexample): a body that request.get_json() cannot parse is
answered 500 (the BadRequest raised by Flask lands in the generic
exception handler), not the claimed 400. -/
theorem claim_C8_counterexample :
    receive_miner_data .invalid false [] = ((500, none), []) ∧ (500 : ℕ) ≠ 400 := by
  decide

/-- C8 (amended): the endpoint answers 200 with the id of the new row on
success and appends exactly that row; a falsy JSON body (null or empty
object) is answered 400 with no side effects; a malformed body is
answered 500 (not 400) with no side effects; a storage failure is
answered 500 with the write rolled back, so the store is unchanged. -/
theorem claim_C8_status_contract (p : MinerData) (store : List MinerData)
    (hreq : missing_required p = false) :
    receive_miner_data (.json (some p)) false store
        = ((200, some (store.length + 1)), store ++ [p])
    ∧ receive_miner_data (.json none) false store = ((400, none), store)
    ∧ (∀ sf, receive_miner_data .invalid sf store = ((500, none), store))
    ∧ receive_miner_data (.json (some p)) true store = ((500, none), store) := by
  refine ⟨?_, rfl, fun sf => rfl, ?_⟩ <;> simp [receive_miner_data, hreq]

/-- C8 (witness): the amended contract at a concrete payload carrying the
three required fields, over an empty store. -/
theorem claim_C8_witness :
    receive_miner_data
        (.json (some ⟨some 60, none, some 12, some 450, none, none, none, none, false, 0⟩))
        false []
        = ((200, some (([] : List MinerData).length + 1)),
            [] ++ [⟨some 60, none, some 12, some 450, none, none, none, none, false, 0⟩])
    ∧ receive_miner_data (.json none) false [] = ((400, none), [])
    ∧ (∀ sf, receive_miner_data .invalid sf [] = ((500, none), []))
    ∧ receive_miner_data
        (.json (some ⟨some 60, none, some 12, some 450, none, none, none, none, false, 0⟩))
        true [] = ((500, none), []) :=
  claim_C8_status_contract
    ⟨some 60, none, some 12, some 450, none, none, none, none, false, 0⟩ [] (by decide)

/-- C2 (counterexample): a sample whose temperature is present but equal
to 0.0 with a configured threshold of -1: the claimed condition (temp not
null and temp above threshold) holds, yet the evaluator emits no
high_temp event, because Python treats the float 0.0 as falsy in
`if data.temp and ...`. -/
theorem claim_C2_counterexample :
    ((some (0:ℚ) ≠ (none : Option ℚ)) ∧ ((0:ℚ) > -1))
    ∧ ¬ (∃ e ∈ check_temperature_alerts
            ⟨some 0, none, none, none, none, none, none, none, false, 0⟩
            (-1) 78 (fun _ => false),
          e.alert_type = "high_temp") := by
  decide

/-- C2 (amended): outside cooldown, evaluating the temperature rules on S
emits a high_temp event iff S.temp is non-null, non-zero and strictly
above the configured threshold, independently of every other field. -/
theorem claim_C2_high_temp_iff (d : MinerData) (temp_limit vr_temp_limit : ℚ)
    (cool : String → Bool) (h : cool "high_temp" = false) :
    (∃ e ∈ check_temperature_alerts d temp_limit vr_temp_limit cool,
        e.alert_type = "high_temp")
      ↔ ∃ t, d.temp = some t ∧ t ≠ 0 ∧ temp_limit < t := by
  unfold check_temperature_alerts
  rw [h]
  cases htemp : d.temp with
  | none => split_ifs <;> simp_all [truthyOptQ]
  | some t => split_ifs <;> simp_all [truthyOptQ]

/-- C2 (witness): the amended equivalence firing at temp = 90 against the
default threshold 66. -/
theorem claim_C2_witness :
    ∃ e ∈ check_temperature_alerts
        ⟨some 90, none, none, none, none, none, none, none, false, 0⟩
        66 78 (fun _ => false),
      e.alert_type = "high_temp" :=
  (claim_C2_high_temp_iff
      ⟨some 90, none, none, none, none, none, none, none, false, 0⟩
      66 78 (fun _ => false) rfl).mpr ⟨90, rfl, by norm_num, by norm_num⟩

/-- C3 (counterexample): best_diff going from "50.0M" to "60.0M" emits
nothing: the evaluator calls the plain float builtin, which rejects the
M suffix, so the rule is skipped and no new_best_diff event with value
60000000 exists. -/
theorem claim_C3_counterexample :
    pyFloat "60.0M" = none
    ∧ check_achievement_alerts
        ⟨none, none, none, none, some "60.0M", none, none, none, false, 0⟩
        (some ⟨none, none, none, none, some "50.0M", none, none, none, false, 0⟩)
      = [] := by
  decide

/-- C3 (amended): the achievement rules parse difficulty strings with the
plain float builtin and know nothing of the k, M, G, T suffixes: whenever
the current best_diff text is unparsable the new_best_diff rule is
skipped without raising (no event of that type is emitted, whatever the
previous sample holds), while plain numeric strings such as "50.0" to
"60.0" do emit a new_best_diff event carrying the parsed value 60. -/
theorem mem_achievement_block (a b : Option String) (ty : String) :
    ∀ e ∈ achievement_block a b ty, e.alert_type = ty := by
  intro e he
  unfold achievement_block at he
  rcases ha : diffVal a with _ | c
  · rw [ha] at he
    simp at he
  · rcases hb : diffVal b with _ | p
    · rw [ha, hb] at he
      simp at he
    · rw [ha, hb] at he
      split at he <;> simp at he
      all_goals
        try obtain ⟨-, he⟩ := he
      all_goals
        subst he
        rfl

theorem achievement_block_skips (a b : Option String) (ty : String)
    (ha : diffVal a = none ∨ diffVal a = some 0) :
    achievement_block a b ty = [] := by
  unfold achievement_block
  rcases ha with ha | ha
  · rw [ha]
  · rw [ha]
    rcases hb : diffVal b with _ | p
    · rfl
    · have h0 : ¬ ((0:ℚ) > 0) := lt_irrefl 0
      simp [h0]

theorem claim_C3_plain_float_parsing (cur prev : MinerData) (s : String)
    (hcur : cur.best_diff = some s) (hfail : pyFloat s = none) :
    (∀ e ∈ check_achievement_alerts cur (some prev), e.alert_type ≠ "new_best_diff")
    ∧ check_achievement_alerts
        ⟨none, none, none, none, some "60.0", none, none, none, false, 0⟩
        (some ⟨none, none, none, none, some "50.0", none, none, none, false, 0⟩)
      = [⟨"new_best_diff", some 60, none, "info"⟩] := by
  refine ⟨?_, by decide⟩
  intro e he
  unfold check_achievement_alerts at he
  rw [List.mem_append] at he
  have hdvs : diffVal (some s) = if s = "" then some 0 else pyFloat s := rfl
  have hdv : diffVal cur.best_diff = none ∨ diffVal cur.best_diff = some 0 := by
    rw [hcur, hdvs]
    by_cases hs : s = ""
    · right
      rw [if_pos hs]
    · left
      rw [if_neg hs, hfail]
  rcases he with he | he
  · rw [achievement_block_skips _ _ _ hdv] at he
    simp at he
  · have := mem_achievement_block _ _ _ e he
    rw [this]
    decide

/-- C3 (witness): the amended statement at the concrete "60.0M" sample
over a concrete previous sample. -/
theorem claim_C3_witness :
    (∀ e ∈ check_achievement_alerts
        ⟨none, none, none, none, some "60.0M", none, none, none, false, 0⟩
        (some ⟨none, none, none, none, some "50.0M", none, none, none, false, 0⟩),
      e.alert_type ≠ "new_best_diff")
    ∧ check_achievement_alerts
        ⟨none, none, none, none, some "60.0", none, none, none, false, 0⟩
        (some ⟨none, none, none, none, some "50.0", none, none, none, false, 0⟩)
      = [⟨"new_best_diff", some 60, none, "info"⟩] :=
  claim_C3_plain_float_parsing
    ⟨none, none, none, none, some "60.0M", none, none, none, false, 0⟩
    ⟨none, none, none, none, some "50.0M", none, none, none, false, 0⟩
    "60.0M" rfl (by decide)

/-- C10: reject_rate is total and returns 0 whenever either share counter
is null or zero, and also under the internal non-positive-total guard;
consequently, for any non-negative configured limit, the
high_reject_rate rule cannot fire on a sample with zero (or null)
accepted shares, whatever the rejected count. -/
theorem claim_C10_reject_rate_safe (d : MinerData) (prev : Option MinerData)
    (lim : ℚ) (hlim : 0 ≤ lim) (cool : String → Bool) :
    ((d.shares_accepted = none ∨ d.shares_accepted = some 0
        ∨ d.shares_rejected = none ∨ d.shares_rejected = some 0) → reject_rate d = 0)
    ∧ (∀ a r, d.shares_accepted = some a → d.shares_rejected = some r →
        a + r ≤ 0 → reject_rate d = 0)
    ∧ ((d.shares_accepted = none ∨ d.shares_accepted = some 0) →
        ∀ e ∈ check_performance_alerts d prev lim cool,
          e.alert_type ≠ "high_reject_rate") := by
  have hzero : (d.shares_accepted = none ∨ d.shares_accepted = some 0
      ∨ d.shares_rejected = none ∨ d.shares_rejected = some 0) → reject_rate d = 0 := by
    intro hcase
    unfold reject_rate
    rcases hcase with h | h | h | h <;> rw [if_pos] <;> simp [truthyOptZ, h]
  refine ⟨hzero, ?_, ?_⟩
  · intro a r ha hr htot
    unfold reject_rate
    rw [ha, hr]
    simp only [Option.getD_some]
    split_ifs with h1 h2
    · rfl
    · omega
    · rfl
  · intro hcase e he
    have hrr : reject_rate d = 0 := hzero (by tauto)
    have hnofire : ¬ (reject_rate d > lim * 100) := by
      rw [hrr]
      have : (0:ℚ) ≤ lim * 100 := by positivity
      linarith
    unfold check_performance_alerts at he
    rw [List.mem_append] at he
    rcases he with he | he
    · rw [if_neg] at he
      · simp at he
      · simp [hnofire]
    · rcases prev with _ | p
      · simp at he
      · split at he <;> simp at he
        all_goals
          try obtain ⟨-, he⟩ := he
        all_goals
          subst he
          simp

/-- C10 (witness): the statement at a sample with zero accepted and 999
rejected shares under the default limit 0.5. -/
theorem claim_C10_witness :
    (((⟨none, none, none, none, none, none, some 0, some 999, false, 0⟩ : MinerData).shares_accepted = none
        ∨ (⟨none, none, none, none, none, none, some 0, some 999, false, 0⟩ : MinerData).shares_accepted = some 0
        ∨ (⟨none, none, none, none, none, none, some 0, some 999, false, 0⟩ : MinerData).shares_rejected = none
        ∨ (⟨none, none, none, none, none, none, some 0, some 999, false, 0⟩ : MinerData).shares_rejected = some 0) →
      reject_rate ⟨none, none, none, none, none, none, some 0, some 999, false, 0⟩ = 0)
    ∧ (∀ a r,
        (⟨none, none, none, none, none, none, some 0, some 999, false, 0⟩ : MinerData).shares_accepted = some a →
        (⟨none, none, none, none, none, none, some 0, some 999, false, 0⟩ : MinerData).shares_rejected = some r →
        a + r ≤ 0 → reject_rate ⟨none, none, none, none, none, none, some 0, some 999, false, 0⟩ = 0)
    ∧ (((⟨none, none, none, none, none, none, some 0, some 999, false, 0⟩ : MinerData).shares_accepted = none
        ∨ (⟨none, none, none, none, none, none, some 0, some 999, false, 0⟩ : MinerData).shares_accepted = some 0) →
        ∀ e ∈ check_performance_alerts
            ⟨none, none, none, none, none, none, some 0, some 999, false, 0⟩
            none (1/2) (fun _ => false),
          e.alert_type ≠ "high_reject_rate") :=
  claim_C10_reject_rate_safe
    ⟨none, none, none, none, none, none, some 0, some 999, false, 0⟩
    none (1/2) (by norm_num) (fun _ => false)

theorem sum_map_mul_right_q (l : List ℚ) (c : ℚ) :
    (l.map (fun r => r * c)).sum = l.sum * c := by
  induction l with
  | nil => simp
  | cons x xs ih =>
    simp only [List.map_cons, List.sum_cons, ih]
    ring

theorem update_perf_step (first : DashSample) (rest : List DashSample)
    (lastS : DashSample) (s : String) (D : ℚ) (t0 : ℤ) (rates : List ℚ)
    (hfirst1 : first.bestSessionDiff.isNone = false)
    (hfirst2 : first.hashRate.isNone = false)
    (hlastS : (first :: rest).getLast? = some lastS)
    (hs : lastS.bestSessionDiff = some s)
    (hparse : parse_dash_diff s = some D)
    (hrates : (first :: rest).mapM (fun x => x.hashRate) = some rates) :
    update_performance_overview (first :: rest) (some t0)
      = some (finish_projection D rates (lastS.timestamp - t0)) := by
  simp only [update_performance_overview, hfirst1, hfirst2]
  simp only [Bool.or_self, Bool.false_or, if_false, hlastS, hs, hparse, hrates,
    Option.some_bind, Option.bind_eq_bind]
  simp

/-- C4: the projection difficulty parser maps "80.8M" to 80800000 (and
the k, G, T analogues to the 1e3, 1e9, 1e12 scalings); any nonempty
string whose final character is outside the suffix alphabet converts to
-1 without any exception, and the projection then returns the explicit
invalid-difficulty message instead of raising. -/
theorem claim_C4_suffix_parsing (s : String) (c : Char)
    (hlast : s.toList.getLast? = some c)
    (hk : c ≠ 'k') (hM : c ≠ 'M') (hG : c ≠ 'G') (hT : c ≠ 'T')
    (first lastS : DashSample) (rest : List DashSample) (t0 : ℤ) (rs : List ℚ)
    (hfirst1 : first.bestSessionDiff.isNone = false)
    (hfirst2 : first.hashRate.isNone = false)
    (hlastS : (first :: rest).getLast? = some lastS)
    (hsd : lastS.bestSessionDiff = some s)
    (hrs : (first :: rest).mapM (fun x => x.hashRate) = some rs) :
    parse_dash_diff "80.8M" = some 80800000
    ∧ parse_dash_diff "1.5k" = some 1500
    ∧ parse_dash_diff "2G" = some 2000000000
    ∧ parse_dash_diff "0.5T" = some 500000000000
    ∧ parse_dash_diff s = some (-1)
    ∧ update_performance_overview (first :: rest) (some t0) = some .invalidDiff := by
  have hparse : parse_dash_diff s = some (-1) := by
    simp only [parse_dash_diff, hlast]
    rw [if_neg hk, if_neg hM, if_neg hG, if_neg hT]
  refine ⟨by decide, by decide, by decide, by decide, hparse, ?_⟩
  rw [update_perf_step first rest lastS s (-1) t0 rs hfirst1 hfirst2 hlastS hsd hparse hrs]
  unfold finish_projection
  rw [if_pos (by norm_num)]

/-- C4 (witness): a one-sample window whose difficulty string "80.8X"
ends in an unknown suffix. -/
theorem claim_C4_witness :
    parse_dash_diff "80.8M" = some 80800000
    ∧ parse_dash_diff "1.5k" = some 1500
    ∧ parse_dash_diff "2G" = some 2000000000
    ∧ parse_dash_diff "0.5T" = some 500000000000
    ∧ parse_dash_diff "80.8X" = some (-1)
    ∧ update_performance_overview [⟨some "80.8X", some 1, 0⟩] (some 0)
        = some .invalidDiff :=
  claim_C4_suffix_parsing "80.8X" 'X' (by decide)
    (by decide) (by decide) (by decide) (by decide)
    ⟨some "80.8X", some 1, 0⟩ ⟨some "80.8X", some 1, 0⟩ [] 0 [1]
    (by decide) (by decide) (by decide) (by decide) (by decide)

/-- C5: on a window whose mean hash rate is H GH/s, with a parsed
best-session-difficulty D above zero, the projection computes the
expected seconds to a new best as D * 2^32 / (H * 1e9) whenever the
chance per second is positive, and reports infinity (none) when it is
zero (or negative), exactly when H is not positive. -/
theorem claim_C5_expected_seconds (first lastS : DashSample) (rest : List DashSample)
    (s : String) (D : ℚ) (t0 : ℤ) (rates : List ℚ)
    (hfirst1 : first.bestSessionDiff.isNone = false)
    (hfirst2 : first.hashRate.isNone = false)
    (hlastS : (first :: rest).getLast? = some lastS)
    (hsd : lastS.bestSessionDiff = some s)
    (hparse : parse_dash_diff s = some D) (hD : 0 < D)
    (hrates : (first :: rest).mapM (fun x => x.hashRate) = some rates) :
    ∃ r, update_performance_overview (first :: rest) (some t0) = some r
      ∧ projExpected r = some (if 0 < rates.sum / (rates.length : ℚ)
          then some (D * 4294967296 / ((rates.sum / (rates.length : ℚ)) * 1000000000))
          else none) := by
  have hstep : projExpected (finish_projection D rates (lastS.timestamp - t0))
      = some (if ((rates.map (fun r => r * 1000000000)).sum / (rates.length : ℚ))
              / (D * 4294967296) > 0
          then some (1 / (((rates.map (fun r => r * 1000000000)).sum / (rates.length : ℚ))
              / (D * 4294967296)))
          else none) := by
    unfold finish_projection
    rw [if_neg (not_le.mpr hD)]
    rfl
  refine ⟨_, update_perf_step first rest lastS s D t0 rates
      hfirst1 hfirst2 hlastS hsd hparse hrates, ?_⟩
  rw [hstep]
  have hmap : ((rates.map (fun r => r * 1000000000)).sum)
      = rates.sum * 1000000000 := sum_map_mul_right_q rates 1000000000
  set Hq := rates.sum / (rates.length : ℚ) with hHq
  have hHcode : ((rates.map (fun r => r * 1000000000)).sum) / (rates.length : ℚ)
      = Hq * 1000000000 := by
    rw [hmap, hHq, div_mul_eq_mul_div]
  rw [hHcode]
  have hden : (0:ℚ) < D * 4294967296 := by positivity
  have hiff : (Hq * 1000000000 / (D * 4294967296) > 0) ↔ (0 < Hq) := by
    rw [gt_iff_lt, div_pos_iff]
    constructor
    · rintro (⟨h1, -⟩ | ⟨-, h2⟩)
      · nlinarith
      · nlinarith
    · intro h
      exact Or.inl ⟨by nlinarith, hden⟩
  by_cases hpos : 0 < Hq
  · rw [if_pos (hiff.mpr hpos), if_pos hpos, one_div_div]
  · rw [if_neg (fun hc => hpos (hiff.mp hc)), if_neg hpos]

/-- C5 (witness): a one-sample window at 1 GH/s with best session
difficulty "1k" (parsed 1000). -/
theorem claim_C5_witness :
    ∃ r, update_performance_overview [⟨some "1k", some 1, 5⟩] (some 3) = some r
      ∧ projExpected r = some (if 0 < List.sum [(1:ℚ)] / ((List.length [(1:ℚ)] : ℕ) : ℚ)
          then some (1000 * 4294967296
              / ((List.sum [(1:ℚ)] / ((List.length [(1:ℚ)] : ℕ) : ℚ)) * 1000000000))
          else none) :=
  claim_C5_expected_seconds ⟨some "1k", some 1, 5⟩ ⟨some "1k", some 1, 5⟩ []
    "1k" 1000 3 [1] (by decide) (by decide) (by decide) (by decide)
    (by decide) (by norm_num) (by decide)

theorem optBind_some {α β : Type} (a : α) (f : α → Option β) : (some a >>= f) = f a := rfl

theorem finish_projection_bounds (d : ℚ) (rs : List ℚ) (t : ℤ)
    (cd cm cy : ℚ) (ex : Option ℚ) (el : ℤ)
    (h : finish_projection d rs t = .ok cd cm cy ex el) :
    cd ≤ 99999/100000 ∧ cm ≤ 1 ∧ cy ≤ 1 := by
  unfold finish_projection at h
  by_cases hd : d ≤ 0
  · rw [if_pos hd] at h
    simp at h
  · rw [if_neg hd] at h
    simp only [ProjResult.ok.injEq] at h
    obtain ⟨e1, e2, e3, -, -⟩ := h
    refine ⟨?_, ?_, ?_⟩
    · rw [← e1]
      split_ifs with hc <;> [norm_num; linarith]
    · rw [← e2]
      split_ifs with hc <;> [norm_num; linarith]
    · rw [← e3]
      split_ifs with hc <;> [norm_num; linarith]

/-- C6 (amended): in the success branch the day chance is reset to 0.9999
only when it exceeds 0.99999 and the month and year chances only when
they exceed 1, so the displayed values are bounded by 0.99999 (day) and
by 1 (month, year) for every input, but not by 0.9999. -/
theorem claim_C6_clamp_bounds (data_array : List DashSample) (ft : Option ℤ)
    (cd cm cy : ℚ) (ex : Option ℚ) (el : ℤ)
    (h : update_performance_overview data_array ft = some (.ok cd cm cy ex el)) :
    cd ≤ 99999/100000 ∧ cm ≤ 1 ∧ cy ≤ 1 := by
  rcases data_array with _ | ⟨first, rest⟩
  · simp [update_performance_overview] at h
  · simp only [update_performance_overview] at h
    split_ifs at h with hreq
    · simp at h
    · rcases hlast : (first :: rest).getLast? with _ | lastS <;> rw [hlast] at h
      · simp at h
      · rw [optBind_some] at h
        rcases hsd : lastS.bestSessionDiff with _ | s <;> rw [hsd] at h
        · simp at h
        · rw [optBind_some] at h
          rcases hp : parse_dash_diff s with _ | D <;> rw [hp] at h
          · simp at h
          · rw [optBind_some] at h
            rcases ft with _ | t0
            · simp at h
            · simp only at h
              rcases hr : (first :: rest).mapM (fun x => x.hashRate) with _ | rs <;>
                rw [hr] at h
              · simp at h
              · rw [optBind_some, Option.some_inj] at h
                exact finish_projection_bounds D rs (lastS.timestamp - t0) cd cm cy ex el h

/-- C6 (counterexample): a one-sample window tuned so that the chance per
second is exactly 1/2592000: the month chance computes to exactly 1,
the guard 1 > 1 fails, and the displayed month value is 1, above the
claimed 0.9999 bound. -/
theorem claim_C6_counterexample :
    update_performance_overview
        [⟨some "1k", some (4294967296/2592000000000), 0⟩] (some 0)
      = some (.ok (1/30) 1 (9999/10000) (some 2592000) 0)
    ∧ ¬ ((1:ℚ) ≤ 9999/10000) := by
  constructor
  · decide
  · norm_num

/-- C6 (witness): the amended bounds at a concrete high-rate window whose
three chances all hit the reset branch. -/
theorem claim_C6_witness :
    (9999/10000 : ℚ) ≤ 99999/100000
    ∧ (9999/10000 : ℚ) ≤ 1 ∧ (9999/10000 : ℚ) ≤ 1 :=
  claim_C6_clamp_bounds [⟨some "1k", some 1, 0⟩] (some 0)
    (9999/10000) (9999/10000) (9999/10000) (some (4294967296/1000000)) 0
    (by decide)

theorem digitChar_props : ∀ d, d < 10 →
    ((digitChar d).toNat = 48 + d ∧ (digitChar d).isDigit = true
      ∧ (digitChar d).toLower = digitChar d ∧ digitChar d ≠ '-' ∧ digitChar d ≠ '+') := by
  decide

theorem natOfDigits_append (cs ds : List Char) :
    natOfDigits (cs ++ ds) = ds.foldl (fun a c => 10 * a + (c.toNat - 48)) (natOfDigits cs) := by
  unfold natOfDigits
  rw [List.foldl_append]

theorem natOfDigits_rev_map (L : List ℕ) (hL : ∀ d ∈ L, d < 10) :
    natOfDigits ((L.reverse).map digitChar) = Nat.ofDigits 10 L := by
  induction L with
  | nil => rfl
  | cons d L ih =>
    have hd : d < 10 := hL d (by simp)
    rw [List.reverse_cons, List.map_append, natOfDigits_append]
    have hrec := ih (fun x hx => hL x (by simp [hx]))
    simp only [List.map_cons, List.map_nil, List.foldl_cons, List.foldl_nil, hrec]
    rw [(digitChar_props d hd).1, Nat.ofDigits_cons]
    omega

theorem natOfDigits_natChars (n : ℕ) : natOfDigits (natChars n) = n := by
  unfold natChars
  rw [natOfDigits_rev_map _ (fun d hd => Nat.digits_lt_base (by norm_num) hd),
    Nat.ofDigits_digits]

theorem natChars_all_digits (n : ℕ) : ∀ c ∈ natChars n, c.isDigit = true := by
  intro c hc
  unfold natChars at hc
  rw [List.mem_map] at hc
  obtain ⟨d, hd, rfl⟩ := hc
  rw [List.mem_reverse] at hd
  exact (digitChar_props d (Nat.digits_lt_base (by norm_num) hd)).2.1

theorem natChars_length (n : ℕ) : (natChars n).length = (Nat.digits 10 n).length := by
  simp [natChars]

theorem natOfDigits_replicate_zeros (k : ℕ) (cs : List Char) :
    natOfDigits (List.replicate k '0' ++ cs) = natOfDigits cs := by
  induction k with
  | zero => rfl
  | succ k ih =>
    rw [List.replicate_succ, List.cons_append]
    exact ih

theorem digits_length_le_of_lt_pow (m e : ℕ) (hm : m < 10 ^ e) :
    (Nat.digits 10 m).length ≤ e := by
  by_cases h0 : m = 0
  · simp [h0]
  · have h1 : 10 ^ (Nat.digits 10 m).length ≤ 10 * m :=
      Nat.base_pow_length_digits_le 10 m (by norm_num) h0
    have h2 : 10 * m < 10 ^ (e + 1) := by
      rw [pow_succ, mul_comm]
      exact Nat.mul_lt_mul_of_lt_of_le hm (le_refl 10) (by norm_num)
    have h3 : 10 ^ (Nat.digits 10 m).length < 10 ^ (e + 1) := lt_of_le_of_lt h1 h2
    have := (Nat.pow_lt_pow_iff_right (by norm_num : 1 < 10)).mp h3
    omega

theorem takeWhile_block (p : Char → Bool) :
    ∀ (xs : List Char) (y : Char) (ys : List Char),
      (∀ c ∈ xs, p c = true) → p y = false →
      ((xs ++ y :: ys).takeWhile p = xs ∧ (xs ++ y :: ys).dropWhile p = y :: ys) := by
  intro xs
  induction xs with
  | nil =>
    intro y ys _ hy
    constructor <;> simp [List.takeWhile_cons, List.dropWhile_cons, hy]
  | cons x xs ih =>
    intro y ys hall hy
    have hx : p x = true := hall x (by simp)
    have hrec := ih y ys (fun c hc => hall c (by simp [hc])) hy
    constructor <;>
      simp [List.takeWhile_cons, List.dropWhile_cons, hx, hrec.1, hrec.2]

theorem pow10Exp_some (q : ℚ) (hq : q.den ∣ 10 ^ q.den) :
    ∃ e, pow10Exp q = some e ∧ q.den ∣ 10 ^ e := by
  have hden : q.den ≠ 0 := q.den_nz
  have hpred : (10 ^ q.den % q.den == 0) = true := by
    rw [beq_iff_eq]
    exact Nat.mod_eq_zero_of_dvd hq
  have hsome : (pow10Exp q).isSome := by
    rw [pow10Exp, List.find?_isSome]
    exact ⟨q.den, List.mem_range.mpr (Nat.lt_succ_self _), hpred⟩
  obtain ⟨e, he⟩ := Option.isSome_iff_exists.mp hsome
  refine ⟨e, he, ?_⟩
  rw [pow10Exp] at he
  have hp := List.find?_some he
  rw [beq_iff_eq] at hp
  exact Nat.dvd_of_mod_eq_zero hp

theorem renderFloat_eq (q : ℚ) (e : ℕ) (he : pow10Exp q = some e) :
    renderFloat q
      = (if q.num < 0 then ['-'] else [])
        ++ (if q.num.natAbs * (10 ^ e / q.den) / 10 ^ e = 0 then ['0']
            else natChars (q.num.natAbs * (10 ^ e / q.den) / 10 ^ e))
        ++ '.' :: (List.replicate
              (e - (natChars (q.num.natAbs * (10 ^ e / q.den) % 10 ^ e)).length) '0'
            ++ natChars (q.num.natAbs * (10 ^ e / q.den) % 10 ^ e)) := by
  simp only [renderFloat, he]

theorem pyFloatChars_digits_dot (sgn : Bool) (ipc fpc : List Char)
    (hipc_ne : ipc ≠ []) (hipc_d : ∀ c ∈ ipc, c.isDigit = true)
    (hfpc_d : ∀ c ∈ fpc, c.isDigit = true) :
    pyFloatChars ((if sgn then ['-'] else []) ++ ipc ++ '.' :: fpc)
      = some ((((if sgn then (-1:ℤ) else 1) : ℤ) : ℚ)
          * ((natOfDigits ipc : ℚ) + (natOfDigits fpc : ℚ) / 10 ^ fpc.length)) := by
  obtain ⟨c0, ipc', rfl⟩ := List.exists_cons_of_ne_nil hipc_ne
  have hc0 : c0.isDigit = true := hipc_d c0 (by simp)
  have hc0m : c0 ≠ '-' := by
    intro h
    rw [h] at hc0
    exact absurd hc0 (by decide)
  have hc0p : c0 ≠ '+' := by
    intro h
    rw [h] at hc0
    exact absurd hc0 (by decide)
  have htw := takeWhile_block Char.isDigit (c0 :: ipc') '.' fpc hipc_d (by decide)
  have hbody : pyFloatBody (if sgn then (-1:ℤ) else 1) (c0 :: ipc') ('.' :: fpc)
      = some ((((if sgn then (-1:ℤ) else 1) : ℤ) : ℚ)
          * ((natOfDigits (c0 :: ipc') : ℚ) + (natOfDigits fpc : ℚ) / 10 ^ fpc.length)) := by
    show (if fpc.all Char.isDigit ∧ ((c0 :: ipc') ≠ [] ∨ fpc ≠ []) then _ else none) = _
    rw [if_pos ⟨List.all_eq_true.mpr hfpc_d, Or.inl (by simp)⟩]
  cases sgn with
  | false =>
    have hstrip : stripSign ((c0 :: ipc') ++ '.' :: fpc)
        = (1, (c0 :: ipc') ++ '.' :: fpc) := by
      rw [stripSign, List.cons_append, List.head?_cons]
      rw [if_neg (by simp [hc0m]), if_neg (by simp [hc0p])]
    have hcs : ((if false then ['-'] else []) ++ (c0 :: ipc') ++ '.' :: fpc)
        = (c0 :: ipc') ++ '.' :: fpc := by simp
    rw [hcs, pyFloatChars, hstrip]
    show pyFloatBody 1 (((c0 :: ipc') ++ '.' :: fpc).takeWhile Char.isDigit)
        (((c0 :: ipc') ++ '.' :: fpc).dropWhile Char.isDigit) = _
    rw [htw.1, htw.2]
    exact hbody
  | true =>
    have hstrip : stripSign ('-' :: ((c0 :: ipc') ++ '.' :: fpc))
        = (-1, (c0 :: ipc') ++ '.' :: fpc) := by
      rw [stripSign, List.head?_cons]
      rw [if_pos rfl]
      rfl
    have hcs : ((if true then ['-'] else []) ++ (c0 :: ipc') ++ '.' :: fpc)
        = '-' :: ((c0 :: ipc') ++ '.' :: fpc) := by simp
    rw [hcs, pyFloatChars, hstrip]
    show pyFloatBody (-1) (((c0 :: ipc') ++ '.' :: fpc).takeWhile Char.isDigit)
        (((c0 :: ipc') ++ '.' :: fpc).dropWhile Char.isDigit) = _
    rw [htw.1, htw.2]
    exact hbody

theorem pyFloatChars_renderFloat (q : ℚ) (hq : q.den ∣ 10 ^ q.den) :
    pyFloatChars (renderFloat q) = some q := by
  obtain ⟨e, he, hdvd⟩ := pow10Exp_some q hq
  have hrender := renderFloat_eq q e he
  have hden0 : q.den ≠ 0 := q.den_nz
  have h10e : (0:ℕ) < 10 ^ e := pow_pos (by norm_num) e
  set k := 10 ^ e / q.den with hk
  have hke : q.den * k = 10 ^ e := Nat.mul_div_cancel' hdvd
  have hkpos : 0 < k := by
    rcases Nat.eq_zero_or_pos k with h | h
    · rw [h, Nat.mul_zero] at hke
      omega
    · exact h
  set scaled := q.num.natAbs * k with hscaled
  set ip := scaled / 10 ^ e with hip
  set fp := scaled % 10 ^ e with hfp
  have hfplt : fp < 10 ^ e := Nat.mod_lt _ h10e
  set ipc := (if ip = 0 then ['0'] else natChars ip) with hipc
  set fpc := (List.replicate (e - (natChars fp).length) '0' ++ natChars fp) with hfpc
  have hipc_digits : ∀ c ∈ ipc, c.isDigit = true := by
    rw [hipc]
    split_ifs
    · intro c hc
      rw [List.mem_singleton] at hc
      rw [hc]
      decide
    · exact natChars_all_digits ip
  have hipc_ne : ipc ≠ [] := by
    rw [hipc]
    split_ifs with h
    · simp
    · have hd : Nat.digits 10 ip ≠ [] := Nat.digits_ne_nil_iff_ne_zero.mpr h
      unfold natChars
      simp only [ne_eq, List.map_eq_nil_iff, List.reverse_eq_nil_iff]
      exact hd
  have hfpc_digits : ∀ c ∈ fpc, c.isDigit = true := by
    rw [hfpc]
    intro c hc
    rw [List.mem_append] at hc
    rcases hc with hc | hc
    · rw [List.mem_replicate] at hc
      rw [hc.2]
      decide
    · exact natChars_all_digits fp c hc
  have hfpc_len : fpc.length = e := by
    rw [hfpc, List.length_append, List.length_replicate, natChars_length]
    have := digits_length_le_of_lt_pow fp e hfplt
    omega
  have hnoi : natOfDigits ipc = ip := by
    rw [hipc]
    split_ifs with h
    · rw [h]
      rfl
    · exact natOfDigits_natChars ip
  have hnof : natOfDigits fpc = fp := by
    rw [hfpc, natOfDigits_replicate_zeros, natOfDigits_natChars]
  have hsgn : (if q.num < 0 then ['-'] else []) = (if decide (q.num < 0) then ['-'] else []) := by
    by_cases h : q.num < 0 <;> simp [h]
  have htrace := pyFloatChars_digits_dot (decide (q.num < 0)) ipc fpc
    hipc_ne hipc_digits hfpc_digits
  rw [hrender, hsgn, htrace, hnoi, hnof, hfpc_len]
  -- arithmetic: the parsed value equals q
  have hdm : 10 ^ e * ip + fp = scaled := Nat.div_add_mod scaled (10 ^ e)
  have h10q : ((10:ℚ) ^ e) ≠ 0 := by positivity
  have hdenq : ((q.den : ℚ)) ≠ 0 := by exact_mod_cast hden0
  have hkq : ((k:ℚ)) ≠ 0 := by
    have := hkpos
    positivity
  have hval : ((ip : ℚ) + (fp : ℚ) / 10 ^ e) = (q.num.natAbs : ℚ) / (q.den : ℚ) := by
    have hcast : ((10:ℚ) ^ e * (ip : ℚ) + (fp:ℚ)) = (scaled : ℚ) := by
      exact_mod_cast hdm
    have hkeq : (q.den : ℚ) * (k:ℚ) = (10:ℚ)^e := by exact_mod_cast hke
    have hscaledq : (scaled : ℚ) = (q.num.natAbs : ℚ) * (k:ℚ) := by
      rw [hscaled]
      push_cast
      ring
    calc (ip:ℚ) + (fp:ℚ)/10^e = ((10:ℚ)^e * ip + fp)/10^e := by
          rw [eq_div_iff h10q, add_mul, div_mul_cancel₀ _ h10q]
          ring
    _ = (scaled:ℚ)/10^e := by rw [hcast]
    _ = ((q.num.natAbs:ℚ) * k)/((q.den:ℚ) * k) := by rw [hscaledq, hkeq]
    _ = (q.num.natAbs:ℚ)/(q.den:ℚ) := mul_div_mul_right _ _ hkq
  rw [hval]
  by_cases hneg : q.num < 0
  · rw [if_pos (by simpa using hneg)]
    have habs : ((q.num.natAbs : ℚ)) = -(q.num : ℚ) := by
      rw [Int.cast_natAbs, abs_of_neg hneg]
      push_cast
      ring
    rw [habs]
    have hfinal : (((-1:ℤ)):ℚ) * (-(q.num : ℚ) / (q.den : ℚ)) = q := by
      push_cast
      rw [neg_div, neg_mul_neg, one_mul, Rat.num_div_den]
    rw [hfinal]
  · rw [if_neg (by simpa using hneg)]
    have habs : ((q.num.natAbs : ℚ)) = (q.num : ℚ) := by
      rw [Int.cast_natAbs, abs_of_nonneg (not_lt.mp hneg)]
    rw [habs]
    have hfinal : (((1:ℤ)):ℚ) * ((q.num : ℚ) / (q.den : ℚ)) = q := by
      push_cast
      rw [one_mul, Rat.num_div_den]
    rw [hfinal]

theorem parse_stored_renderFloat (q : ℚ) (hq : q.den ∣ 10 ^ q.den) :
    parse_stored (renderFloat q) = .float q := by
  obtain ⟨e, he, -⟩ := pow10Exp_some q hq
  have hdot : '.' ∈ renderFloat q := by
    rw [renderFloat_eq q e he]
    simp
  have hdotlow : '.' ∈ (renderFloat q).map Char.toLower :=
    List.mem_map.mpr ⟨'.', hdot, by decide⟩
  have hne1 : (renderFloat q).map Char.toLower ≠ "true".toList := by
    intro hcontra
    rw [hcontra] at hdotlow
    exact absurd hdotlow (by decide)
  have hne2 : (renderFloat q).map Char.toLower ≠ "false".toList := by
    intro hcontra
    rw [hcontra] at hdotlow
    exact absurd hdotlow (by decide)
  simp only [parse_stored]
  rw [if_neg (not_or.mpr ⟨hne1, hne2⟩)]
  rw [pyFloatChars_renderFloat q hq]

theorem find?_map_update (key : String) (v : List Char) :
    ∀ (store : List (String × List Char)),
      store.any (fun p => p.1 == key) = true →
      (store.map (fun p => if p.1 == key then (key, v) else p)).find?
          (fun p => p.1 == key) = some (key, v) := by
  intro store
  induction store with
  | nil =>
    intro h
    simp at h
  | cons p s ih =>
    intro h
    by_cases hp : (p.1 == key) = true
    · rw [List.map_cons, if_pos hp]
      rw [List.find?_cons_of_pos _ (by simp)]
    · rw [List.map_cons, if_neg hp]
      rw [List.find?_cons_of_neg _ (by simpa using hp)]
      apply ih
      rw [List.any_cons, Bool.or_eq_true] at h
      rcases h with h1 | h1
      · exact absurd h1 hp
      · exact h1

theorem find?_append_right (key : String) (store l2 : List (String × List Char))
    (h : store.any (fun p => p.1 == key) = false) :
    (store ++ l2).find? (fun p => p.1 == key) = l2.find? (fun p => p.1 == key) := by
  induction store with
  | nil => rfl
  | cons p s ih =>
    rw [List.any_cons, Bool.or_eq_false_iff] at h
    rw [List.cons_append, List.find?_cons_of_neg _ (by simp [h.1])]
    exact ih h.2

theorem find?_set_setting (key : String) (v : PyVal)
    (store : List (String × List Char)) :
    (set_setting key v store).find? (fun p => p.1 == key) = some (key, pyStr v) := by
  unfold set_setting
  by_cases h : store.any (fun p => p.1 == key) = true
  · rw [if_pos h]
    exact find?_map_update key (pyStr v) store h
  · rw [if_neg h]
    have h' : store.any (fun p => p.1 == key) = false := by
      cases hx : store.any (fun p => p.1 == key) with
      | false => rfl
      | true => exact absurd hx h
    rw [find?_append_right key store _ h']
    rw [List.find?_cons_of_pos _ (by simp)]

/-- C9: the settings round-trip: storing a boolean with set_setting and
reading it back yields the same boolean (str gives "True"/"False", the
lowercased text is recognised), and storing any float value with a
finite decimal expansion (every Python float has one; the hypothesis
says the denominator divides a power of ten) yields the same rational
back through the float branch of get_setting, whatever the default. -/
theorem claim_C9_settings_roundtrip (key : String)
    (store : List (String × List Char)) (dflt : PyVal)
    (b : Bool) (q : ℚ) (hq : q.den ∣ 10 ^ q.den) :
    get_setting key dflt (set_setting key (.bool b) store) = .bool b
    ∧ get_setting key dflt (set_setting key (.float q) store) = .float q := by
  constructor
  · unfold get_setting
    rw [find?_set_setting]
    show parse_stored (pyStr (.bool b)) = .bool b
    cases b <;> decide
  · unfold get_setting
    rw [find?_set_setting]
    show parse_stored (pyStr (.float q)) = .float q
    exact parse_stored_renderFloat q hq

/-- C9 (witness): the round-trip at key temp_limit over an empty store
for the boolean true and the float 3.5. -/
theorem claim_C9_witness :
    get_setting "temp_limit" (.float 66)
        (set_setting "temp_limit" (.bool true) []) = .bool true
    ∧ get_setting "temp_limit" (.float 66)
        (set_setting "temp_limit" (.float (7/2)) []) = .float (7/2) :=
  claim_C9_settings_roundtrip "temp_limit" [] (.float 66) true (7/2) (by decide)

end BitAxe
